import Mathlib

/-!
Verification of the testnet CPU miner control loop (`miner.go`).

The program is a single Go file driving proof-of-work block generation
against a remote dcrd node over a JSON-RPC websocket channel.  We embed
its core logic shallowly:

* time instants and durations are `Int` nanoseconds, as Go's
  `time.Duration` and `time.Time` arithmetic (overflow is immaterial for
  the properties at hand);
* the remote RPC service is an environment (`Chain`, `GenEnv`) recording
  what each call would return and which branch of the completion/watchdog
  race fires;
* side effects (RPC calls issued, log lines, sleeps) are reified as an
  event list `Ev`, so temporal claims become statements about traces.
-/

namespace Miner

/-- Time instants: nanoseconds since the Unix epoch, as Go `time.Time`
arithmetic at nanosecond resolution. -/
abbrev Instant := Int

/-- Durations: nanoseconds, as Go `time.Duration`. -/
abbrev Duration := Int

def millisecond : Duration := 1000000

def second : Duration := 1000000000

def minute : Duration := 60 * second

/-- Shared deadline of both tip-observation calls
(`context.WithTimeout(ctx, 100*time.Millisecond)` in `pollBestBlockTime`). -/
def pollDeadline : Duration := 100 * millisecond

/-- Overall deadline of the mine-request
(`context.WithTimeout(ctx, 16*time.Second)` in `generate`). -/
def generateDeadline : Duration := 16 * second

/-- Watchdog timer duration (`time.NewTimer(15 * time.Second)` in `generate`). -/
def watchdogDuration : Duration := 15 * second

/-- Deadline of the stop-request
(`context.WithTimeout(ctx, 100*time.Millisecond)` inside the timer branch). -/
def stopDeadline : Duration := 100 * millisecond

/-- The process-wide flags read by the loop (immutable after startup). -/
structure Config where
  targetBlockTime : Duration
  retryDuration : Duration
deriving DecidableEq, Repr

/-- Go `t.Truncate(d)` for positive `d` and non-negative `t`: round down to
a multiple of `d`.  Used by the code only to format logged values. -/
def truncMul (t d : Int) : Int := d * (t / d)

/-- Observable events of the program: RPC calls issued (with the deadline
carried by their context), waits on the async call's completion signal,
log lines, and sleeps. -/
inductive Ev
  /-- `c.Call(ctx, "getbestblockhash", ...)` under `deadline`. -/
  | callBestBlockHash (deadline : Duration)
  /-- `c.Call(ctx, "getblockheader", ..., hash)` under `deadline`. -/
  | callBlockHeader (hash : String) (deadline : Duration)
  /-- the asynchronous mine-request `c.Go(ctx, "generate", &hashes, nil, count)`. -/
  | goGenerate (count : Nat) (deadline : Duration)
  /-- the synchronous `c.Call(ctx, "generate", nil, count)` stop-request. -/
  | callGenerate (count : Nat) (deadline : Duration)
  /-- `time.NewTimer(d)`: arming the watchdog. -/
  | startTimer (d : Duration)
  /-- receiving from `call.Done()`. -/
  | awaitDone
  /-- `log.Print("starting cpu miner")`. -/
  | logStarting
  /-- `log.Print("stopping cpu miner")`. -/
  | logStopping
  /-- `log.Printf("failed to disable CPU miner: %v", err)`. -/
  | logStopFailed (e : String)
  /-- `log.Printf("generate: %v", err)`: the unexpected-error line. -/
  | logGenerateErr (e : String)
  /-- `log.Printf("warn: pollBestBlockTime returned error: %v", err)`. -/
  | logWarnPoll (e : String)
  /-- `log.Printf("best block time: %v; mining scheduled time: %v", ...)`. -/
  | logSchedule (tip mineTime : Instant)
  /-- `log.Printf("sleeping %v", wait.Truncate(time.Millisecond))`. -/
  | logSleeping (d : Duration)
  /-- `log.Printf("generate: mined block %s", hash)`. -/
  | logMined (hash : String)
  /-- `log.Printf("polling blocks again at %v", nextPoll)`. -/
  | logNextPoll (t : Instant)
  /-- `time.Sleep(d)`. -/
  | sleep (d : Duration)
deriving DecidableEq, Repr

/-- The remote chain service as seen by `pollBestBlockTime`: what each of
the two RPC calls would return. -/
structure Chain where
  getbestblockhash : Except String String
  getblockheader : String → Except String Int

/-- Result value of `pollBestBlockTime` (miner.go lines 29–50): resolve the
best block hash, then fetch its header and return `time.Unix(header.Time, 0)`.
Either failure is wrapped with the failing sub-call's name via
`fmt.Errorf("...: %w", err)` and no timestamp is returned. -/
def pollBestBlockTime (ch : Chain) : Except String Instant :=
  match ch.getbestblockhash with
  | .error e => .error ("getbestblockhash: " ++ e)
  | .ok h =>
    match ch.getblockheader h with
    | .error e => .error ("getblockheader: " ++ e)
    | .ok t => .ok (t * second)

/-- The RPC calls issued by `pollBestBlockTime`, in order, each under the
one shared 100 ms context deadline.  The second call is only reached when
`getbestblockhash` succeeded (the code returns early on its error). -/
def pollEvents (ch : Chain) : List Ev :=
  match ch.getbestblockhash with
  | .error _ => [.callBestBlockHash pollDeadline]
  | .ok h => [.callBestBlockHash pollDeadline, .callBlockHeader h pollDeadline]

/-- Possible actions of the schedule decision derived in the main loop. -/
inductive Action
  | pollAgain
  | mineNow
deriving DecidableEq, Repr

/-- The schedule decision: the computed `mineTime` and whether the loop
mines now or sleeps until `mineTime` and re-polls. -/
structure ScheduleDecision where
  action : Action
  nextWakeInstant : Instant
deriving DecidableEq, Repr

/-- The schedule planner, miner.go lines 138–145:
`mineTime := tipTime.Add(*targetBlockTime)`;
`if wait := time.Until(mineTime); wait > 0` the loop sleeps `wait` and
re-polls, otherwise it mines now.  `time.Until(x)` is `x - now`. -/
def plan (tipTime : Instant) (targetBlockTime : Duration) (now : Instant) :
    ScheduleDecision :=
  let mineTime := tipTime + targetBlockTime
  if mineTime - now > 0 then
    { action := .pollAgain, nextWakeInstant := mineTime }
  else
    { action := .mineNow, nextWakeInstant := mineTime }

/-- Environment of one `generate` attempt: which branch of the
`select` race fires, what the stop-request would return if issued, and the
mine-request's eventual result (`call.Result()` error, or the `hashes`
slice filled in on success). -/
structure GenEnv where
  doneBeforeWatchdog : Bool
  stopErr : Option String
  mineResult : Except String (List String)
deriving Repr

/-- Outcome of one `generate` attempt.  `panicIndexOutOfRange` models the
Go runtime panic of `hashes[0]` on an empty slice. -/
inductive GenOutcome
  | ok (hash : String)
  | err (e : String)
  | panicIndexOutOfRange
deriving DecidableEq, Repr

/-- Result of one `generate` attempt: its outcome, the final value of the
`stopped` flag, and the trace of events. -/
structure GenResult where
  outcome : GenOutcome
  stopped : Bool
  events : List Ev
deriving DecidableEq, Repr

/-- miner.go lines 81–89: read `call.Result()`; on error log the
unexpected-error line unless `stopped`, and return the error either way;
on success return `hashes[0]` (a panic when the slice is empty). -/
def resolveResult (env : GenEnv) (stopped : Bool) (evs : List Ev) : GenResult :=
  match env.mineResult with
  | .error e =>
    { outcome := .err e, stopped := stopped,
      events := evs ++ if stopped then [] else [.logGenerateErr e] }
  | .ok [] =>
    { outcome := .panicIndexOutOfRange, stopped := stopped, events := evs }
  | .ok (h :: _) =>
    { outcome := .ok h, stopped := stopped, events := evs }

/-- The mining invoker, miner.go lines 52–90: issue the asynchronous
mine-request under a 16 s deadline, arm a 15 s watchdog, race completion
against the watchdog; on watchdog fire issue a 100 ms stop-request — on its
failure log and fall through without waiting, on its success set `stopped`
and await completion — then resolve from the original call's result. -/
def generate (env : GenEnv) : GenResult :=
  let evs := [Ev.logStarting, Ev.goGenerate 1 generateDeadline,
              Ev.startTimer watchdogDuration]
  if env.doneBeforeWatchdog then
    resolveResult env false (evs ++ [Ev.awaitDone])
  else
    let evs := evs ++ [Ev.logStopping, Ev.callGenerate 0 stopDeadline]
    match env.stopErr with
    | some e => resolveResult env false (evs ++ [Ev.logStopFailed e])
    | none => resolveResult env true (evs ++ [Ev.awaitDone])

/-- Environment of one iteration of the main loop: the chain responses for
this poll, `time.Now()` at the `time.Until(mineTime)` check, the
environment of the `generate` attempt should one start, and `time.Now()`
at the `nextPoll` computation. -/
structure IterEnv where
  chain : Chain
  now : Instant
  gen : GenEnv
  now2 : Instant

/-- Result of one loop iteration: its event trace and whether it ended in
a runtime panic (which aborts the process). -/
structure IterOut where
  events : List Ev
  panicked : Bool
deriving DecidableEq, Repr

/-- The MINE_NOW branch of the loop body, miner.go lines 147–160: run
`generate`; on error the backoff is `min(retryDuration, targetBlockTime)`,
on success log the mined hash and use `targetBlockTime`; then compute
`nextPoll = now.Add(sleep).Truncate(100ms)` for the log line only and
`time.Sleep(sleep)` the raw value.  `evs` are the events already emitted
earlier in the iteration. -/
def mineNowStep (cfg : Config) (env : IterEnv) (evs : List Ev) : IterOut :=
  match (generate env.gen).outcome with
  | .panicIndexOutOfRange =>
    { events := evs ++ (generate env.gen).events, panicked := true }
  | .err _ =>
    { events := evs ++ (generate env.gen).events ++
        [.logNextPoll (truncMul (env.now2 + min cfg.retryDuration cfg.targetBlockTime)
           (100 * millisecond)),
         .sleep (min cfg.retryDuration cfg.targetBlockTime)],
      panicked := false }
  | .ok h =>
    { events := evs ++ (generate env.gen).events ++
        [.logMined h,
         .logNextPoll (truncMul (env.now2 + cfg.targetBlockTime) (100 * millisecond)),
         .sleep cfg.targetBlockTime],
      panicked := false }

/-- One iteration of the `for` loop in `main`, miner.go lines 130–161:
poll the tip (on error warn and sleep `retryDuration`); derive the
schedule; on POLL_AGAIN log and sleep until `mineTime`; on MINE_NOW run
the mining step. -/
def loopIter (cfg : Config) (env : IterEnv) : IterOut :=
  match pollBestBlockTime env.chain with
  | .error e =>
    { events := pollEvents env.chain ++ [.logWarnPoll e, .sleep cfg.retryDuration],
      panicked := false }
  | .ok tipTime =>
    let d := plan tipTime cfg.targetBlockTime env.now
    let evs := pollEvents env.chain ++ [Ev.logSchedule tipTime d.nextWakeInstant]
    match d.action with
    | .pollAgain =>
      let wait := d.nextWakeInstant - env.now
      { events := evs ++ [.logSleeping (truncMul wait millisecond), .sleep wait],
        panicked := false }
    | .mineNow => mineNowStep cfg env evs

/-- The infinite `for` loop of `main`, unrolled over a finite list of
per-iteration environments; a panic aborts the run. -/
def runLoop (cfg : Config) : List IterEnv → List Ev
  | [] => []
  | e :: es =>
    let o := loopIter cfg e
    if o.panicked then o.events else o.events ++ runLoop cfg es

/-! ### Concrete inputs used to exercise the definitions -/

/-- A chain whose two observation calls both succeed. -/
def chainA : Chain :=
  { getbestblockhash := Except.ok "000000000000abc",
    getblockheader := fun _ => Except.ok 1700000000 }

/-- A chain whose best-block-hash call fails. -/
def chainFailFirst : Chain :=
  { getbestblockhash := Except.error "boom",
    getblockheader := fun _ => Except.ok 0 }

/-- A chain whose header call fails after a successful hash call. -/
def chainFailSecond : Chain :=
  { getbestblockhash := Except.ok "000000000000abc",
    getblockheader := fun _ => Except.error "context deadline exceeded" }

/-- The default flag values of the program. -/
def cfgA : Config := { targetBlockTime := 2 * minute, retryDuration := 30 * second }

/-- An iteration whose tip is 30 s old: the loop polls again. -/
def envA : IterEnv :=
  { chain := chainA,
    now := 1700000000 * second + 30 * second,
    gen := { doneBeforeWatchdog := true, stopErr := none,
             mineResult := Except.ok ["hashvalue"] },
    now2 := 1700000000 * second + 30 * second }

/-- An iteration whose tip is 3 min old and whose attempt succeeds within
the watchdog. -/
def envB : IterEnv :=
  { chain := chainA,
    now := 1700000000 * second + 3 * minute,
    gen := { doneBeforeWatchdog := true, stopErr := none,
             mineResult := Except.ok ["hashvalue"] },
    now2 := 1700000000 * second + 3 * minute + 16 * second + 37 * millisecond }

/-- Like `envB` but the attempt fails with an RPC error. -/
def envC : IterEnv :=
  { chain := chainA,
    now := 1700000000 * second + 3 * minute,
    gen := { doneBeforeWatchdog := false, stopErr := none,
             mineResult := Except.error "generate stopped" },
    now2 := 1700000000 * second + 3 * minute + 16 * second + 37 * millisecond }

/-! ### Helper lemmas -/

theorem pollEvents_cons (ch : Chain) :
    ∃ tl, pollEvents ch = Ev.callBestBlockHash pollDeadline :: tl := by
  unfold pollEvents
  cases ch.getbestblockhash with
  | error e => exact ⟨[], rfl⟩
  | ok h => exact ⟨[Ev.callBlockHeader h pollDeadline], rfl⟩

theorem plan_action_iff (T D now : Int) :
    (plan T D now).action = Action.mineNow ↔ T + D ≤ now := by
  unfold plan
  by_cases h : T + D - now > 0 <;> simp [h] <;> omega

theorem plan_pollAgain (T D now : Int) (h : now < T + D) :
    plan T D now = { action := Action.pollAgain, nextWakeInstant := T + D } := by
  unfold plan
  have hgt : T + D - now > 0 := by omega
  simp [hgt]

theorem plan_mineNow (T D now : Int) (h : T + D ≤ now) :
    plan T D now = { action := Action.mineNow, nextWakeInstant := T + D } := by
  unfold plan
  have hgt : ¬(T + D - now > 0) := by omega
  simp [hgt]

theorem loopIter_error_eq (cfg : Config) (env : IterEnv) (e : String)
    (hE : pollBestBlockTime env.chain = Except.error e) :
    loopIter cfg env =
      { events := pollEvents env.chain ++
          [Ev.logWarnPoll e, Ev.sleep cfg.retryDuration],
        panicked := false } := by
  unfold loopIter
  rw [hE]

theorem loopIter_pollAgain_eq (cfg : Config) (env : IterEnv) (T : Instant)
    (hT : pollBestBlockTime env.chain = Except.ok T)
    (h : env.now < T + cfg.targetBlockTime) :
    loopIter cfg env =
      { events := pollEvents env.chain ++
          [Ev.logSchedule T (T + cfg.targetBlockTime),
           Ev.logSleeping (truncMul (T + cfg.targetBlockTime - env.now) millisecond),
           Ev.sleep (T + cfg.targetBlockTime - env.now)],
        panicked := false } := by
  have hp := plan_pollAgain T cfg.targetBlockTime env.now h
  simp [loopIter, hT, hp]

theorem loopIter_mineNow_eq (cfg : Config) (env : IterEnv) (T : Instant)
    (hT : pollBestBlockTime env.chain = Except.ok T)
    (h : T + cfg.targetBlockTime ≤ env.now) :
    loopIter cfg env =
      mineNowStep cfg env (pollEvents env.chain ++
        [Ev.logSchedule T (T + cfg.targetBlockTime)]) := by
  have hp := plan_mineNow T cfg.targetBlockTime env.now h
  simp [loopIter, hT, hp]

theorem generate_events_mine (env : GenEnv) :
    Ev.goGenerate 1 generateDeadline ∈ (generate env).events := by
  rcases env with ⟨d, s, m⟩
  cases d <;> rcases s with _ | e0 <;> rcases m with e | (_ | ⟨h, tl⟩) <;>
    simp [generate, resolveResult]

theorem mineNowStep_has_goGenerate (cfg : Config) (env : IterEnv) (evs : List Ev) :
    Ev.goGenerate 1 generateDeadline ∈ (mineNowStep cfg env evs).events := by
  have hm := generate_events_mine env.gen
  unfold mineNowStep
  cases hg : (generate env.gen).outcome <;> simp [hg, List.mem_append, hm]

theorem pollEvents_no_goGenerate (ch : Chain) (dl : Duration) :
    Ev.goGenerate 1 dl ∉ pollEvents ch := by
  unfold pollEvents
  cases ch.getbestblockhash <;> simp

theorem loopIter_pollAgain_no_goGenerate (cfg : Config) (env : IterEnv) (T : Instant)
    (hT : pollBestBlockTime env.chain = Except.ok T)
    (h : env.now < T + cfg.targetBlockTime) (dl : Duration) :
    Ev.goGenerate 1 dl ∉ (loopIter cfg env).events := by
  rw [loopIter_pollAgain_eq cfg env T hT h]
  have hp := pollEvents_no_goGenerate env.chain dl
  simp [List.mem_append, hp]

theorem loopIter_events_head (cfg : Config) (env : IterEnv) :
    (loopIter cfg env).events.head? = some (Ev.callBestBlockHash pollDeadline) := by
  obtain ⟨tl, htl⟩ := pollEvents_cons env.chain
  unfold loopIter mineNowStep
  cases hp : pollBestBlockTime env.chain with
  | error e => simp [htl]
  | ok t =>
    cases ha : (plan t cfg.targetBlockTime env.now).action with
    | pollAgain => simp [ha, htl]
    | mineNow =>
      cases hg : (generate env.gen).outcome <;> simp [ha, hg, htl]

theorem loopIter_pollAgain_not_panicked (cfg : Config) (env : IterEnv) (T : Instant)
    (hT : pollBestBlockTime env.chain = Except.ok T)
    (h : env.now < T + cfg.targetBlockTime) :
    (loopIter cfg env).panicked = false := by
  rw [loopIter_pollAgain_eq cfg env T hT h]

theorem runLoop_cons_head (cfg : Config) (e : IterEnv) (es : List IterEnv) :
    (runLoop cfg (e :: es)).head? = some (Ev.callBestBlockHash pollDeadline) := by
  have hh := loopIter_events_head cfg e
  have hne : (loopIter cfg e).events ≠ [] := by
    intro hnil
    rw [hnil] at hh
    exact Option.noConfusion hh
  unfold runLoop
  cases hp : (loopIter cfg e).panicked <;> simp only [hp]
  · rw [if_neg (by simp), List.head?_append_of_ne_nil _ hne]
    exact hh
  · simpa using hh

/-! ### Claims -/

/-- Claim C1: for every tip timestamp `T`, target interval `D` and current
time `now`, the decision is MINE_NOW — a mining attempt (the asynchronous
generate request) is started — iff `now ≥ T + D`; otherwise the decision is
POLL_AGAIN with `nextWakeInstant = T + D`, the loop's last action of the
iteration is sleeping until that instant, and the following cycle begins by
re-observing the tip instead of mining. -/
theorem C1_schedule_decision (cfg : Config) (env : IterEnv) (T : Instant)
    (hT : pollBestBlockTime env.chain = Except.ok T) :
    ((plan T cfg.targetBlockTime env.now).action = Action.mineNow ↔
      T + cfg.targetBlockTime ≤ env.now) ∧
    ((plan T cfg.targetBlockTime env.now).action = Action.mineNow ↔
      Ev.goGenerate 1 generateDeadline ∈ (loopIter cfg env).events) ∧
    (env.now < T + cfg.targetBlockTime →
      plan T cfg.targetBlockTime env.now =
        { action := Action.pollAgain, nextWakeInstant := T + cfg.targetBlockTime } ∧
      (∀ dl, Ev.goGenerate 1 dl ∉ (loopIter cfg env).events) ∧
      (loopIter cfg env).events.getLast? =
        some (Ev.sleep (T + cfg.targetBlockTime - env.now)) ∧
      ∀ e2 es, runLoop cfg (env :: e2 :: es) =
          (loopIter cfg env).events ++ runLoop cfg (e2 :: es) ∧
        (runLoop cfg (e2 :: es)).head? = some (Ev.callBestBlockHash pollDeadline)) := by
  refine ⟨plan_action_iff T cfg.targetBlockTime env.now, ?_, ?_⟩
  · constructor
    · intro h
      have hle := (plan_action_iff T cfg.targetBlockTime env.now).1 h
      rw [loopIter_mineNow_eq cfg env T hT hle]
      exact mineNowStep_has_goGenerate cfg env _
    · intro hmem
      rw [plan_action_iff T cfg.targetBlockTime env.now]
      by_contra hlt
      push_neg at hlt
      exact loopIter_pollAgain_no_goGenerate cfg env T hT hlt
        generateDeadline hmem
  · intro hlt
    refine ⟨plan_pollAgain T cfg.targetBlockTime env.now hlt,
      loopIter_pollAgain_no_goGenerate cfg env T hT hlt, ?_, ?_⟩
    · rw [loopIter_pollAgain_eq cfg env T hT hlt]
      rw [List.getLast?_append_cons]
      rfl
    · intro e2 es
      constructor
      · have hnp := loopIter_pollAgain_not_panicked cfg env T hT hlt
        have hstep : runLoop cfg (env :: e2 :: es) =
            if (loopIter cfg env).panicked = true then (loopIter cfg env).events
            else (loopIter cfg env).events ++ runLoop cfg (e2 :: es) := rfl
        rw [hstep, hnp]
        simp
      · exact runLoop_cons_head cfg e2 es

theorem C1_schedule_decision_witness :
    (plan (1700000000 * second) cfgA.targetBlockTime envA.now).action =
        Action.mineNow ↔
      1700000000 * second + cfgA.targetBlockTime ≤ envA.now :=
  (C1_schedule_decision cfgA envA (1700000000 * second) rfl).1

/-- Claim C2: for every mining attempt, if the mine-request's completion
signal fires before the 15-second watchdog timer, then no stop-request
(a synchronous generate call, in particular with count 0) is ever issued
during that attempt. -/
theorem C2_no_stop_when_done_first (env : GenEnv)
    (h : env.doneBeforeWatchdog = true) (n : Nat) (dl : Duration) :
    Ev.callGenerate n dl ∉ (generate env).events := by
  rcases env with ⟨d, s, m⟩
  have hd : d = true := h
  subst hd
  rcases m with e | (_ | ⟨hh, tl⟩) <;> simp [generate, resolveResult]

theorem C2_no_stop_when_done_first_witness :
    Ev.callGenerate 0 stopDeadline ∉
      (generate { doneBeforeWatchdog := true, stopErr := none,
                  mineResult := Except.ok ["hashvalue"] }).events :=
  C2_no_stop_when_done_first
    { doneBeforeWatchdog := true, stopErr := none,
      mineResult := Except.ok ["hashvalue"] } rfl 0 stopDeadline

/-- Claim C3: when the mine-request resolves with an error, the error is
always returned to the caller (`outcome = err e`) regardless of whether a
stop-request was issued; the `stopped` flag only suppresses the
unexpected-error log line. -/
theorem C3_error_always_propagated (env : GenEnv) (e : String)
    (h : env.mineResult = Except.error e) :
    (generate env).outcome = GenOutcome.err e ∧
    (Ev.logGenerateErr e ∈ (generate env).events ↔
      (generate env).stopped = false) := by
  rcases env with ⟨d, s, m⟩
  have hm : m = Except.error e := h
  subst hm
  cases d <;> rcases s with _ | e0 <;> simp [generate, resolveResult]

theorem C3_error_always_propagated_witness :
    (generate { doneBeforeWatchdog := false, stopErr := none,
                mineResult := Except.error "generate stopped" }).outcome =
        GenOutcome.err "generate stopped" ∧
    (Ev.logGenerateErr "generate stopped" ∈
        (generate { doneBeforeWatchdog := false, stopErr := none,
                    mineResult := Except.error "generate stopped" }).events ↔
      (generate { doneBeforeWatchdog := false, stopErr := none,
                  mineResult := Except.error "generate stopped" }).stopped =
        false) :=
  C3_error_always_propagated
    { doneBeforeWatchdog := false, stopErr := none,
      mineResult := Except.error "generate stopped" } "generate stopped" rfl

/-- Claim C4: if the watchdog fires and the stop-request itself fails, the
failure is logged, the attempt is not marked stop-requested, no further
wait on the completion signal happens, and the attempt resolves from the
original mine-request's eventual result, not a synthesized error. -/
theorem C4_stop_request_failure (env : GenEnv) (e : String)
    (hd : env.doneBeforeWatchdog = false) (hs : env.stopErr = some e) :
    (generate env).stopped = false ∧
    Ev.logStopFailed e ∈ (generate env).events ∧
    Ev.awaitDone ∉ (generate env).events ∧
    (∀ e2, env.mineResult = Except.error e2 →
      (generate env).outcome = GenOutcome.err e2) ∧
    (∀ hh tl, env.mineResult = Except.ok (hh :: tl) →
      (generate env).outcome = GenOutcome.ok hh) := by
  rcases env with ⟨d, s, m⟩
  have hd2 : d = false := hd
  have hs2 : s = some e := hs
  subst hd2
  subst hs2
  rcases m with e1 | (_ | ⟨hh, tl⟩) <;> simp [generate, resolveResult]

theorem C4_stop_request_failure_witness :
    (generate { doneBeforeWatchdog := false,
                stopErr := some "disable failed",
                mineResult := Except.error "generate stopped" }).stopped =
        false ∧
    (generate { doneBeforeWatchdog := false,
                stopErr := some "disable failed",
                mineResult := Except.error "generate stopped" }).outcome =
      GenOutcome.err "generate stopped" := by
  have h := C4_stop_request_failure
    { doneBeforeWatchdog := false, stopErr := some "disable failed",
      mineResult := Except.error "generate stopped" } "disable failed" rfl rfl
  exact ⟨h.1, h.2.2.2.1 "generate stopped" rfl⟩

theorem generate_events_timer (env : GenEnv) :
    Ev.startTimer watchdogDuration ∈ (generate env).events := by
  rcases env with ⟨d, s, m⟩
  cases d <;> rcases s with _ | e0 <;> rcases m with e | (_ | ⟨hh, tl⟩) <;>
    simp [generate, resolveResult]

theorem generate_events_stop (env : GenEnv)
    (hd : env.doneBeforeWatchdog = false) :
    Ev.callGenerate 0 stopDeadline ∈ (generate env).events := by
  rcases env with ⟨d, s, m⟩
  have hd2 : d = false := hd
  subst hd2
  rcases s with _ | e0 <;> rcases m with e | (_ | ⟨hh, tl⟩) <;>
    simp [generate, resolveResult]

/-- Claim C7: in every mining attempt the watchdog duration (15 s) is
strictly shorter than the mine-request's overall deadline (16 s), and the
stop-request issued on watchdog fire carries its own 100 ms deadline. -/
theorem C7_watchdog_inside_deadline (env : GenEnv) :
    watchdogDuration < generateDeadline ∧
    watchdogDuration = 15 * second ∧
    generateDeadline = 16 * second ∧
    stopDeadline = 100 * millisecond ∧
    Ev.goGenerate 1 generateDeadline ∈ (generate env).events ∧
    Ev.startTimer watchdogDuration ∈ (generate env).events ∧
    (env.doneBeforeWatchdog = false →
      Ev.callGenerate 0 stopDeadline ∈ (generate env).events) :=
  ⟨by norm_num [watchdogDuration, generateDeadline, second], rfl, rfl, rfl,
   generate_events_mine env, generate_events_timer env,
   fun hd => generate_events_stop env hd⟩

theorem C7_watchdog_inside_deadline_witness :
    Ev.callGenerate 0 stopDeadline ∈
      (generate { doneBeforeWatchdog := false, stopErr := none,
                  mineResult := Except.error "generate stopped" }).events :=
  (C7_watchdog_inside_deadline
    { doneBeforeWatchdog := false, stopErr := none,
      mineResult := Except.error "generate stopped" }).2.2.2.2.2.2 rfl

/-- Claim C10: on the success path the invoker returns `hashes[0]` without
a length check; the access is in bounds exactly when the reported hash
list is non-empty, and a successful mine-request reporting zero hashes
makes the attempt end in an index-out-of-range panic. -/
theorem C10_first_hash_unchecked (env : GenEnv) (hs : List String)
    (h : env.mineResult = Except.ok hs) :
    ((generate env).outcome = GenOutcome.panicIndexOutOfRange ↔ hs = []) ∧
    (∀ hd tl, hs = hd :: tl → (generate env).outcome = GenOutcome.ok hd) := by
  rcases env with ⟨d, s, m⟩
  have hm : m = Except.ok hs := h
  subst hm
  cases d <;> rcases s with _ | e0 <;> rcases hs with _ | ⟨hd, tl⟩ <;>
    simp [generate, resolveResult]

theorem C10_first_hash_unchecked_witness :
    (generate { doneBeforeWatchdog := true, stopErr := none,
                mineResult := Except.ok ([] : List String) }).outcome =
      GenOutcome.panicIndexOutOfRange := by
  have h := C10_first_hash_unchecked
    { doneBeforeWatchdog := true, stopErr := none,
      mineResult := Except.ok ([] : List String) } [] rfl
  exact h.1.mpr rfl

theorem mineNowStep_err_eq (cfg : Config) (env : IterEnv) (evs : List Ev)
    (e : String) (hg : (generate env.gen).outcome = GenOutcome.err e) :
    mineNowStep cfg env evs =
      { events := evs ++ (generate env.gen).events ++
          [Ev.logNextPoll (truncMul
             (env.now2 + min cfg.retryDuration cfg.targetBlockTime)
             (100 * millisecond)),
           Ev.sleep (min cfg.retryDuration cfg.targetBlockTime)],
        panicked := false } := by
  unfold mineNowStep
  rw [hg]

theorem mineNowStep_ok_eq (cfg : Config) (env : IterEnv) (evs : List Ev)
    (h : String) (hg : (generate env.gen).outcome = GenOutcome.ok h) :
    mineNowStep cfg env evs =
      { events := evs ++ (generate env.gen).events ++
          [Ev.logMined h,
           Ev.logNextPoll (truncMul (env.now2 + cfg.targetBlockTime)
             (100 * millisecond)),
           Ev.sleep cfg.targetBlockTime],
        panicked := false } := by
  unfold mineNowStep
  rw [hg]

theorem loopIter_goGenerate_iff (cfg : Config) (env : IterEnv) (T : Instant)
    (hT : pollBestBlockTime env.chain = Except.ok T) :
    (Ev.goGenerate 1 generateDeadline ∈ (loopIter cfg env).events) ↔
      T + cfg.targetBlockTime ≤ env.now := by
  constructor
  · intro hmem
    by_contra hlt
    push_neg at hlt
    exact loopIter_pollAgain_no_goGenerate cfg env T hT hlt
      generateDeadline hmem
  · intro hle
    rw [loopIter_mineNow_eq cfg env T hT hle]
    exact mineNowStep_has_goGenerate cfg env _

/-- Claim C5: after a failed mining attempt the iteration ends with a sleep
of exactly `min(retryDuration, targetBlockTime)` — so the post-failure
sleep never exceeds `targetBlockTime` — and after a successful attempt it
ends with a sleep of exactly `targetBlockTime`. -/
theorem C5_backoff_bound (cfg : Config) (env : IterEnv) (T : Instant)
    (hT : pollBestBlockTime env.chain = Except.ok T)
    (hm : T + cfg.targetBlockTime ≤ env.now) :
    ((∃ e, (generate env.gen).outcome = GenOutcome.err e) →
      (loopIter cfg env).events.getLast? =
        some (Ev.sleep (min cfg.retryDuration cfg.targetBlockTime)) ∧
      min cfg.retryDuration cfg.targetBlockTime ≤ cfg.targetBlockTime) ∧
    ((∃ h, (generate env.gen).outcome = GenOutcome.ok h) →
      (loopIter cfg env).events.getLast? = some (Ev.sleep cfg.targetBlockTime)) := by
  rw [loopIter_mineNow_eq cfg env T hT hm]
  constructor
  · rintro ⟨e, hg⟩
    rw [mineNowStep_err_eq cfg env _ e hg]
    refine ⟨?_, min_le_right _ _⟩
    rw [List.getLast?_append_cons]
    rfl
  · rintro ⟨h, hg⟩
    rw [mineNowStep_ok_eq cfg env _ h hg]
    rw [List.getLast?_append_cons]
    rfl

theorem C5_backoff_bound_witness :
    (loopIter cfgA envC).events.getLast? =
      some (Ev.sleep (min cfgA.retryDuration cfgA.targetBlockTime)) ∧
    min cfgA.retryDuration cfgA.targetBlockTime ≤ cfgA.targetBlockTime :=
  (C5_backoff_bound cfgA envC (1700000000 * second) rfl (by decide)).1
    ⟨"generate stopped", rfl⟩

/-- Claim C9: before the post-attempt sleep the loop logs a next-poll
instant truncated to 100 ms granularity, but the sleep event itself
carries the raw computed duration (`min(retryDuration, targetBlockTime)`
after a failure, `targetBlockTime` after a success), unchanged by the
rounding. -/
theorem C9_truncation_log_only (cfg : Config) (env : IterEnv) (T : Instant)
    (hT : pollBestBlockTime env.chain = Except.ok T)
    (hm : T + cfg.targetBlockTime ≤ env.now) :
    (∀ e, (generate env.gen).outcome = GenOutcome.err e →
      ∃ pre, (loopIter cfg env).events = pre ++
        [Ev.logNextPoll (truncMul
           (env.now2 + min cfg.retryDuration cfg.targetBlockTime)
           (100 * millisecond)),
         Ev.sleep (min cfg.retryDuration cfg.targetBlockTime)]) ∧
    (∀ h, (generate env.gen).outcome = GenOutcome.ok h →
      ∃ pre, (loopIter cfg env).events = pre ++
        [Ev.logNextPoll (truncMul (env.now2 + cfg.targetBlockTime)
           (100 * millisecond)),
         Ev.sleep cfg.targetBlockTime]) := by
  rw [loopIter_mineNow_eq cfg env T hT hm]
  constructor
  · intro e hg
    rw [mineNowStep_err_eq cfg env _ e hg]
    exact ⟨_, rfl⟩
  · intro h hg
    rw [mineNowStep_ok_eq cfg env _ h hg]
    exact ⟨(pollEvents env.chain ++ [Ev.logSchedule T (T + cfg.targetBlockTime)]) ++
      (generate env.gen).events ++ [Ev.logMined h], by simp⟩

theorem C9_truncation_log_only_witness :
    (∃ pre, (loopIter cfgA envB).events = pre ++
      [Ev.logNextPoll (truncMul (envB.now2 + cfgA.targetBlockTime)
         (100 * millisecond)),
       Ev.sleep cfgA.targetBlockTime]) ∧
    truncMul (envB.now2 + cfgA.targetBlockTime) (100 * millisecond) ≠
      envB.now2 + cfgA.targetBlockTime :=
  ⟨(C9_truncation_log_only cfgA envB (1700000000 * second) rfl (by decide)).2
    "hashvalue" rfl, by decide⟩

/-- Claim C8: the schedule planner is a pure deterministic function of
(tip timestamp, targetBlockTime, now): evaluating it twice on identical
inputs yields identical decisions, and the loop's mine/poll decision
depends on nothing else in the iteration environment. -/
theorem C8_planner_no_hidden_state (T now : Int) (cfg : Config)
    (e1 e2 : IterEnv)
    (h1 : pollBestBlockTime e1.chain = Except.ok T)
    (h2 : pollBestBlockTime e2.chain = Except.ok T)
    (hn1 : e1.now = now) (hn2 : e2.now = now) :
    plan T cfg.targetBlockTime now = plan T cfg.targetBlockTime now ∧
    ((Ev.goGenerate 1 generateDeadline ∈ (loopIter cfg e1).events) ↔
      (Ev.goGenerate 1 generateDeadline ∈ (loopIter cfg e2).events)) := by
  refine ⟨rfl, ?_⟩
  rw [loopIter_goGenerate_iff cfg e1 T h1, loopIter_goGenerate_iff cfg e2 T h2,
    hn1, hn2]

theorem C8_planner_no_hidden_state_witness :
    plan (1700000000 * second) cfgA.targetBlockTime (1700000000 * second + 3 * minute) =
      plan (1700000000 * second) cfgA.targetBlockTime (1700000000 * second + 3 * minute) ∧
    ((Ev.goGenerate 1 generateDeadline ∈ (loopIter cfgA envB).events) ↔
      (Ev.goGenerate 1 generateDeadline ∈ (loopIter cfgA envC).events)) :=
  C8_planner_no_hidden_state (1700000000 * second)
    (1700000000 * second + 3 * minute) cfgA envB envC rfl rfl rfl rfl

/-- Claim C6 as stated is refuted: when the best-block-hash call fails,
`pollBestBlockTime` returns after a single RPC call, so an observation
does not always issue exactly two calls. -/
theorem C6_counterexample :
    pollEvents chainFailFirst = [Ev.callBestBlockHash pollDeadline] ∧
    (pollEvents chainFailFirst).length ≠ 2 ∧
    pollBestBlockTime chainFailFirst =
      Except.error ("getbestblockhash: " ++ "boom") :=
  ⟨rfl, by decide, rfl⟩

/-- Claim C6 (amended): tip observation issues at most two sequential RPC
calls — the best-block-identifier call and, only if it succeeds, the
header call for that identifier — both under the one shared 100 ms
deadline; if either call fails the result is an error wrapped with the
failing sub-call's name and no timestamp is returned. -/
theorem C6_amended_observation (ch : Chain) :
    (pollEvents ch).length ≤ 2 ∧
    pollDeadline = 100 * millisecond ∧
    (∀ h, ch.getbestblockhash = Except.ok h →
      pollEvents ch =
        [Ev.callBestBlockHash pollDeadline, Ev.callBlockHeader h pollDeadline]) ∧
    (∀ e, ch.getbestblockhash = Except.error e →
      pollEvents ch = [Ev.callBestBlockHash pollDeadline] ∧
      pollBestBlockTime ch = Except.error ("getbestblockhash: " ++ e)) ∧
    (∀ h e, ch.getbestblockhash = Except.ok h →
      ch.getblockheader h = Except.error e →
      pollBestBlockTime ch = Except.error ("getblockheader: " ++ e)) ∧
    (∀ h t, ch.getbestblockhash = Except.ok h →
      ch.getblockheader h = Except.ok t →
      pollBestBlockTime ch = Except.ok (t * second)) := by
  refine ⟨?_, rfl, ?_, ?_, ?_, ?_⟩
  · unfold pollEvents
    cases ch.getbestblockhash <;> simp
  · intro h hh
    simp [pollEvents, hh]
  · intro e he
    constructor <;> simp [pollEvents, pollBestBlockTime, he]
  · intro h e hh hhe
    simp [pollBestBlockTime, hh, hhe]
  · intro h t hh hht
    simp [pollBestBlockTime, hh, hht]

theorem C6_amended_observation_witness :
    pollBestBlockTime chainFailSecond =
      Except.error ("getblockheader: " ++ "context deadline exceeded") :=
  (C6_amended_observation chainFailSecond).2.2.2.2.1
    "000000000000abc" "context deadline exceeded" rfl rfl

end Miner
